import Mathlib

/-!
Verification of the `rct` transaction processor.

The development shallowly embeds the core of the repository:
`src/client.rs` (the `Client` account type and its fund-movement
operations) and the worker loop of `src/transaction_processor.rs`
(`TransactionProcessor::worker`).

`rust_decimal::Decimal` is modelled as an exact integer with the 96-bit
magnitude bound of the real type: a `Decimal` is a scaled integer
`m · 10^(-e)`, and since the core only ever adds and subtracts amounts,
a run whose input amounts share a common scale stays on that scale, so
amounts are embedded as exact integers (the bound `Dmax = 2^96 - 1` is
the magnitude bound at scale 0).  `checked_add`/`checked_sub` return
`none` when the exact result's magnitude exceeds `Decimal::MAX`, and
`saturating_add` clamps to `±Decimal::MAX`.  Precision/rounding of the
28-digit mantissa is not modelled.  `is_sign_negative` is modelled as
`· < 0` (computed zeros are taken to carry a positive sign).

Rust methods taking `&mut self` and returning `Result<()>` are embedded
as functions `Client → ℤ → Except String Unit × Client` (mirroring
`&mut self -> Result<()>`): the second
component is the state of `self` at the point the method returns, so a
hypothetical partial mutation before an early `return Err(..)` would be
visible in the embedding.  The worker's two `HashMap`s are embedded as
functions to `Option`, with insertion replacing the previous binding,
exactly as `HashMap::insert` does.
-/

namespace RCT

/-- Magnitude bound of `rust_decimal::Decimal`: `Decimal::MAX = 2^96 - 1`. -/
def Dmax : ℤ := 79228162514264337593543950335

/-- Model of `Decimal::checked_add`: the exact sum, or `none` on overflow. -/
def decCheckedAdd (x y : ℤ) : Option ℤ :=
  if -Dmax ≤ x + y ∧ x + y ≤ Dmax then some (x + y) else none

/-- Model of `Decimal::checked_sub`: the exact difference, or `none` on overflow. -/
def decCheckedSub (x y : ℤ) : Option ℤ :=
  if -Dmax ≤ x - y ∧ x - y ≤ Dmax then some (x - y) else none

/-- Model of `Decimal::saturating_add`: the exact sum clamped to `±Decimal::MAX`. -/
def decSaturatingAdd (x y : ℤ) : ℤ :=
  if Dmax < x + y then Dmax else if x + y < -Dmax then -Dmax else x + y

/-- The client account state (`struct Client` in `src/client.rs`). -/
structure Client where
  id : ℕ
  available : ℤ
  held : ℤ
  locked : Bool
deriving DecidableEq, Repr

/-- `Client::new`: zero balances, unlocked. -/
def Client.new (id : ℕ) : Client :=
  { id := id, available := 0, held := 0, locked := false }

/-- `Client::get_total`: `self.available.saturating_add(self.held)`. -/
def Client.get_total (c : Client) : ℤ :=
  decSaturatingAdd c.available c.held

/-- `Client::add_available`. -/
def Client.add_available (c : Client) (amount : ℤ) :
    Except String Unit × Client :=
  if amount < 0 then (.error "Amount must be positive.", c)
  else
    match decCheckedAdd c.available amount with
    | none => (.error "Fail to add to the available founds.", c)
    | some new_amount => (.ok (), { c with available := new_amount })

/-- `Client::subtract_available`. -/
def Client.subtract_available (c : Client) (amount : ℤ) :
    Except String Unit × Client :=
  if amount < 0 then (.error "Amount must be positive.", c)
  else
    match decCheckedSub c.available amount with
    | none => (.error "Fail to subtract to the available funds.", c)
    | some new_amount =>
      if new_amount < 0 then (.error "Not enough funds available.", c)
      else (.ok (), { c with available := new_amount })

/-- `Client::transfer_available_to_held`. -/
def Client.transfer_available_to_held (c : Client) (amount : ℤ) :
    Except String Unit × Client :=
  if amount < 0 then (.error "Amount must be positive.", c)
  else
    match decCheckedSub c.available amount with
    | none =>
      (.error "Fail to acquire available funds to do the transaction.", c)
    | some new_available =>
      if new_available < 0 then
        (.error "Not enough available funds to do the transaction", c)
      else
        match decCheckedAdd c.held amount with
        | none => (.error "Fail to held funds to do the transaction.", c)
        | some new_held =>
          (.ok (), { c with available := new_available, held := new_held })

/-- `Client::transfer_held_to_available`. -/
def Client.transfer_held_to_available (c : Client) (amount : ℤ) :
    Except String Unit × Client :=
  if amount < 0 then (.error "Amount must be positive.", c)
  else
    match decCheckedAdd c.available amount with
    | none =>
      (.error "Fail to add funds to available during transaction.", c)
    | some new_available =>
      match decCheckedSub c.held amount with
      | none =>
        (.error "Fail to subtract from held funds during transaction.", c)
      | some new_held =>
        if new_held < 0 then
          (.error "Not enough held funds to the transaction.", c)
        else
          (.ok (), { c with available := new_available, held := new_held })

/-- `Client::subtract_held`. -/
def Client.subtract_held (c : Client) (amount : ℤ) :
    Except String Unit × Client :=
  if amount < 0 then (.error "Amount must be positive.", c)
  else
    match decCheckedSub c.held amount with
    | none => (.error "Fail to subtract from held funds.", c)
    | some new_held =>
      if new_held < 0 then (.error "Not enough held funds to subtract from.", c)
      else (.ok (), { c with held := new_held })

/-- `Client::lock_account`: sets `locked = true`. -/
def Client.lock_account (c : Client) : Client :=
  { c with locked := true }

/-- The five transaction kinds (`enum TransactionType`). -/
inductive TransactionType where
  | Deposit
  | Withdrawal
  | Dispute
  | Resolve
  | Chargeback
deriving DecidableEq, Repr

/-- A ledger entry (`struct Transaction` in `src/transaction.rs`): the kind
is stored as a string, as in the source. -/
structure Transaction where
  ttype : String
  client : ℕ
  tx : ℕ
  amount : Option ℤ
deriving DecidableEq, Repr

/-- Model of `char::to_ascii_lowercase` (shifts only ASCII capitals). -/
def asciiLowerChar (ch : Char) : Char :=
  if 'A' ≤ ch ∧ ch ≤ 'Z' then Char.ofNat (ch.toNat + 32) else ch

/-- Model of `str::to_ascii_lowercase`. -/
def asciiLower (s : String) : String :=
  String.mk (s.data.map asciiLowerChar)

/-- `Transaction::get_type`: parse the stored string, case-insensitively. -/
def Transaction.get_type (t : Transaction) : Option TransactionType :=
  let type_str := asciiLower t.ttype
  if type_str = "deposit" then some .Deposit
  else if type_str = "withdrawal" then some .Withdrawal
  else if type_str = "dispute" then some .Dispute
  else if type_str = "resolve" then some .Resolve
  else if type_str = "chargeback" then some .Chargeback
  else none

/-- Model of `Result::is_ok`. -/
def resultIsOk {ε α : Type} : Except ε α → Bool
  | .ok _ => true
  | .error _ => false

/-- Replace the binding of one key in a map to `Option`, as
`HashMap::insert` does (later insertions overwrite earlier ones). -/
def mapInsert {α : Type} (m : ℕ → Option α) (k : ℕ) (v : α) :
    ℕ → Option α :=
  fun k' => if k' = k then some v else m k'

/-- The private state of one worker (`TransactionProcessor::worker`):
its map of clients and its transaction history. -/
structure WorkerState where
  clients : ℕ → Option Client
  transactions : ℕ → Option Transaction

/-- The worker starts with both maps empty. -/
def WorkerState.init : WorkerState :=
  { clients := fun _ => none, transactions := fun _ => none }

/-- One iteration of the worker loop of `TransactionProcessor::worker` on
one received transaction: look up or create the client (the `entry`
API inserts the fresh client even when nothing else happens), skip
everything if it is locked, and otherwise dispatch on the entry kind,
mirroring the `match` of the source.  Errors of the fund-movement
operations are discarded (`unwrap_or_default`), keeping whatever state
the operation left behind. -/
def worker_step (s : WorkerState) (t : Transaction) : WorkerState :=
  let client := (s.clients t.client).getD (Client.new t.client)
  let clients0 := mapInsert s.clients t.client client
  if client.locked then { s with clients := clients0 }
  else
    match t.get_type with
    | none => { s with clients := clients0 }
    | some TransactionType.Deposit =>
      match t.amount with
      | none => { s with clients := clients0 }
      | some amount =>
        let r := client.add_available amount
        let clients1 := mapInsert s.clients t.client r.2
        if resultIsOk r.1 then
          { clients := clients1,
            transactions := mapInsert s.transactions t.tx t }
        else { s with clients := clients1 }
    | some TransactionType.Withdrawal =>
      match t.amount with
      | none => { s with clients := clients0 }
      | some amount =>
        let r := client.subtract_available amount
        let clients1 := mapInsert s.clients t.client r.2
        if resultIsOk r.1 then
          { clients := clients1,
            transactions := mapInsert s.transactions t.tx t }
        else { s with clients := clients1 }
    | some TransactionType.Dispute =>
      match s.transactions t.tx with
      | none => { s with clients := clients0 }
      | some ref_transaction =>
        if ref_transaction.client = client.id then
          match ref_transaction.amount with
          | none => { s with clients := clients0 }
          | some amount =>
            let r := client.transfer_available_to_held amount
            { s with clients := mapInsert s.clients t.client r.2 }
        else { s with clients := clients0 }
    | some TransactionType.Resolve =>
      match s.transactions t.tx with
      | none => { s with clients := clients0 }
      | some ref_transaction =>
        if ref_transaction.client = client.id then
          match ref_transaction.amount with
          | none => { s with clients := clients0 }
          | some amount =>
            let r := client.transfer_held_to_available amount
            { s with clients := mapInsert s.clients t.client r.2 }
        else { s with clients := clients0 }
    | some TransactionType.Chargeback =>
      match s.transactions t.tx with
      | none => { s with clients := clients0 }
      | some ref_transaction =>
        if ref_transaction.client = client.id then
          match ref_transaction.amount with
          | none => { s with clients := clients0 }
          | some amount =>
            let r := client.subtract_held amount
            { s with
              clients := mapInsert s.clients t.client r.2.lock_account }
        else { s with clients := clients0 }

/-- A full worker run: fold the loop body over the received entries,
starting from empty maps. -/
def worker (ts : List Transaction) : WorkerState :=
  ts.foldl worker_step WorkerState.init

/-- The account of a client as seen by the worker: the stored account, or
the fresh zero account the `entry` API would create. -/
def clientAt (s : WorkerState) (cid : ℕ) : Client :=
  (s.clients cid).getD (Client.new cid)

/-- `available + held` of one client's account (0 for absent clients). -/
def totalAt (s : WorkerState) (cid : ℕ) : ℤ :=
  (clientAt s cid).available + (clientAt s cid).held

/-- The amount a Deposit entry successfully credits in state `s`
(0 when the entry is not a successful deposit). -/
def depositApplied (s : WorkerState) (t : Transaction) : ℤ :=
  let c := clientAt s t.client
  if c.locked then 0
  else
    match t.get_type, t.amount with
    | some TransactionType.Deposit, some a =>
      if resultIsOk (c.add_available a).1 then a else 0
    | _, _ => 0

/-- The amount a Withdrawal entry successfully debits in state `s`
(0 when the entry is not a successful withdrawal). -/
def withdrawalApplied (s : WorkerState) (t : Transaction) : ℤ :=
  let c := clientAt s t.client
  if c.locked then 0
  else
    match t.get_type, t.amount with
    | some TransactionType.Withdrawal, some a =>
      if resultIsOk (c.subtract_available a).1 then a else 0
    | _, _ => 0

/-- Sum of the amounts of the deposits of one client that are successfully
applied when the worker, started in state `s`, processes the list. -/
def depSum : WorkerState → List Transaction → ℕ → ℤ
  | _, [], _ => 0
  | s, t :: ts, cid =>
    (if t.client = cid then depositApplied s t else 0) +
      depSum (worker_step s t) ts cid

/-- Sum of the amounts of the withdrawals of one client that are
successfully applied when the worker, started in state `s`, processes
the list. -/
def wdSum : WorkerState → List Transaction → ℕ → ℤ
  | _, [], _ => 0
  | s, t :: ts, cid =>
    (if t.client = cid then withdrawalApplied s t else 0) +
      wdSum (worker_step s t) ts cid

/-- Whether an entry is of the dispute family (Dispute/Resolve/Chargeback),
i.e. references a prior entry by `tx_id`. -/
def dispLike (t : Transaction) : Bool :=
  match t.get_type with
  | some TransactionType.Dispute => true
  | some TransactionType.Resolve => true
  | some TransactionType.Chargeback => true
  | _ => false

/-- Every dispute-family entry of the list references a `tx_id` that
already occurred (as the `tx` field of some earlier entry or of the
accumulator). -/
def refsSeenFrom : List ℕ → List Transaction → Bool
  | _, [] => true
  | seen, t :: ts =>
    (if dispLike t then seen.contains t.tx else true) &&
      refsSeenFrom (t.tx :: seen) ts

/-- Every dispute-family entry of the list references an already-seen
`tx_id`. -/
def refsSeenB (ts : List Transaction) : Bool :=
  refsSeenFrom [] ts

/-- The possible relations between the account looked up (or created) by
one worker-loop iteration and the account stored back by it: unchanged,
or the outcome of exactly one fund-movement operation, with Chargeback
additionally locking. -/
inductive StepRes (c : Client) : Client → Prop where
  | same : StepRes c c
  | dep (a : ℤ) : StepRes c (c.add_available a).2
  | wd (a : ℤ) : StepRes c (c.subtract_available a).2
  | disp (a : ℤ) : StepRes c (c.transfer_available_to_held a).2
  | res (a : ℤ) : StepRes c (c.transfer_held_to_available a).2
  | cb (a : ℤ) : StepRes c ((c.subtract_held a).2.lock_account)

theorem decCheckedAdd_in {x y : ℤ} (h : -Dmax ≤ x + y ∧ x + y ≤ Dmax) :
    decCheckedAdd x y = some (x + y) := by
  unfold decCheckedAdd; rw [if_pos h]

theorem decCheckedAdd_out {x y : ℤ} (h : ¬(-Dmax ≤ x + y ∧ x + y ≤ Dmax)) :
    decCheckedAdd x y = none := by
  unfold decCheckedAdd; rw [if_neg h]

theorem decCheckedSub_in {x y : ℤ} (h : -Dmax ≤ x - y ∧ x - y ≤ Dmax) :
    decCheckedSub x y = some (x - y) := by
  unfold decCheckedSub; rw [if_pos h]

theorem decCheckedSub_out {x y : ℤ} (h : ¬(-Dmax ≤ x - y ∧ x - y ≤ Dmax)) :
    decCheckedSub x y = none := by
  unfold decCheckedSub; rw [if_neg h]

theorem add_available_spec (c : Client) (a : ℤ) :
    (resultIsOk (c.add_available a).1 = true ∧ 0 ≤ a ∧
      (c.add_available a).2 = { c with available := c.available + a }) ∨
    (resultIsOk (c.add_available a).1 = false ∧ (c.add_available a).2 = c) := by
  by_cases h1 : a < 0
  · exact .inr (by simp [Client.add_available, h1, resultIsOk])
  · by_cases h2 : -Dmax ≤ c.available + a ∧ c.available + a ≤ Dmax
    · refine .inl ?_
      simp [Client.add_available, decCheckedAdd_in h2, h1, resultIsOk]
      omega
    · exact .inr (by simp [Client.add_available, decCheckedAdd_out h2, h1, resultIsOk])

theorem subtract_available_spec (c : Client) (a : ℤ) :
    (resultIsOk (c.subtract_available a).1 = true ∧ 0 ≤ a ∧
      0 ≤ c.available - a ∧
      (c.subtract_available a).2 = { c with available := c.available - a }) ∨
    (resultIsOk (c.subtract_available a).1 = false ∧
      (c.subtract_available a).2 = c) := by
  by_cases h1 : a < 0
  · exact .inr (by simp [Client.subtract_available, h1, resultIsOk])
  · by_cases h2 : -Dmax ≤ c.available - a ∧ c.available - a ≤ Dmax
    · by_cases h3 : c.available - a < 0
      · refine .inr ?_
        simp [Client.subtract_available, decCheckedSub_in h2, h1, h3, resultIsOk]
      · refine .inl ?_
        simp [Client.subtract_available, decCheckedSub_in h2, h1, h3, resultIsOk]
        omega
    · exact .inr
        (by simp [Client.subtract_available, decCheckedSub_out h2, h1, resultIsOk])

theorem transfer_available_to_held_spec (c : Client) (a : ℤ) :
    (resultIsOk (c.transfer_available_to_held a).1 = true ∧ 0 ≤ a ∧
      0 ≤ c.available - a ∧
      (c.transfer_available_to_held a).2 =
        { c with available := c.available - a, held := c.held + a }) ∨
    (resultIsOk (c.transfer_available_to_held a).1 = false ∧
      (c.transfer_available_to_held a).2 = c) := by
  by_cases h1 : a < 0
  · exact .inr (by simp [Client.transfer_available_to_held, h1, resultIsOk])
  · by_cases h2 : -Dmax ≤ c.available - a ∧ c.available - a ≤ Dmax
    · by_cases h3 : c.available - a < 0
      · refine .inr ?_
        simp [Client.transfer_available_to_held, decCheckedSub_in h2,
          h1, h3, resultIsOk]
      · by_cases h4 : -Dmax ≤ c.held + a ∧ c.held + a ≤ Dmax
        · refine .inl ?_
          simp [Client.transfer_available_to_held, decCheckedSub_in h2,
            decCheckedAdd_in h4, h1, h3, resultIsOk]
          omega
        · refine .inr ?_
          simp [Client.transfer_available_to_held, decCheckedSub_in h2,
            decCheckedAdd_out h4, h1, h3, resultIsOk]
    · exact .inr (by simp [Client.transfer_available_to_held,
        decCheckedSub_out h2, h1, resultIsOk])

theorem transfer_held_to_available_spec (c : Client) (a : ℤ) :
    (resultIsOk (c.transfer_held_to_available a).1 = true ∧ 0 ≤ a ∧
      0 ≤ c.held - a ∧
      (c.transfer_held_to_available a).2 =
        { c with available := c.available + a, held := c.held - a }) ∨
    (resultIsOk (c.transfer_held_to_available a).1 = false ∧
      (c.transfer_held_to_available a).2 = c) := by
  by_cases h1 : a < 0
  · exact .inr (by simp [Client.transfer_held_to_available, h1, resultIsOk])
  · by_cases h2 : -Dmax ≤ c.available + a ∧ c.available + a ≤ Dmax
    · by_cases h3 : -Dmax ≤ c.held - a ∧ c.held - a ≤ Dmax
      · by_cases h4 : c.held - a < 0
        · refine .inr ?_
          simp [Client.transfer_held_to_available, decCheckedSub_in h3,
            decCheckedAdd_in h2, h1, h4, resultIsOk]
        · refine .inl ?_
          simp [Client.transfer_held_to_available, decCheckedSub_in h3,
            decCheckedAdd_in h2, h1, h4, resultIsOk]
          omega
      · refine .inr ?_
        simp [Client.transfer_held_to_available, decCheckedSub_out h3,
          decCheckedAdd_in h2, h1, resultIsOk]
    · exact .inr (by simp [Client.transfer_held_to_available,
        decCheckedAdd_out h2, h1, resultIsOk])

theorem subtract_held_spec (c : Client) (a : ℤ) :
    (resultIsOk (c.subtract_held a).1 = true ∧ 0 ≤ a ∧ 0 ≤ c.held - a ∧
      (c.subtract_held a).2 = { c with held := c.held - a }) ∨
    (resultIsOk (c.subtract_held a).1 = false ∧ (c.subtract_held a).2 = c) := by
  by_cases h1 : a < 0
  · exact .inr (by simp [Client.subtract_held, h1, resultIsOk])
  · by_cases h2 : -Dmax ≤ c.held - a ∧ c.held - a ≤ Dmax
    · by_cases h3 : c.held - a < 0
      · refine .inr ?_
        simp [Client.subtract_held, decCheckedSub_in h2, h1, h3, resultIsOk]
      · refine .inl ?_
        simp [Client.subtract_held, decCheckedSub_in h2, h1, h3, resultIsOk]
        omega
    · exact .inr (by simp [Client.subtract_held, decCheckedSub_out h2, h1, resultIsOk])

theorem mapInsert_self {α : Type} (m : ℕ → Option α) (k : ℕ) (v : α) :
    mapInsert m k v k = some v := by
  simp [mapInsert]

theorem mapInsert_other {α : Type} (m : ℕ → Option α) (k k' : ℕ) (v : α)
    (h : k' ≠ k) : mapInsert m k v k' = m k' := by
  simp [mapInsert, h]

theorem worker_step_clients_other (s : WorkerState) (t : Transaction)
    (cid : ℕ) (h : cid ≠ t.client) :
    (worker_step s t).clients cid = s.clients cid := by
  simp only [worker_step]
  repeat' split
  all_goals simp [mapInsert, h]

theorem worker_step_self (s : WorkerState) (t : Transaction) :
    ∃ c', (worker_step s t).clients t.client = some c' ∧
      StepRes (clientAt s t.client) c' := by
  simp only [worker_step, clientAt]
  repeat' split
  all_goals
    first
    | exact ⟨_, mapInsert_self _ _ _, StepRes.same⟩
    | exact ⟨_, mapInsert_self _ _ _, StepRes.dep _⟩
    | exact ⟨_, mapInsert_self _ _ _, StepRes.wd _⟩
    | exact ⟨_, mapInsert_self _ _ _, StepRes.disp _⟩
    | exact ⟨_, mapInsert_self _ _ _, StepRes.res _⟩
    | exact ⟨_, mapInsert_self _ _ _, StepRes.cb _⟩

theorem stepRes_nonneg {c c' : Client} (h : StepRes c c')
    (ha : 0 ≤ c.available) (hh : 0 ≤ c.held) :
    0 ≤ c'.available ∧ 0 ≤ c'.held := by
  cases h with
  | same => exact ⟨ha, hh⟩
  | dep a =>
    rcases add_available_spec c a with ⟨_, h0, he⟩ | ⟨_, he⟩ <;> rw [he]
    · constructor <;> simp <;> omega
    · exact ⟨ha, hh⟩
  | wd a =>
    rcases subtract_available_spec c a with ⟨_, h0, h1, he⟩ | ⟨_, he⟩ <;> rw [he]
    · constructor <;> simp <;> omega
    · exact ⟨ha, hh⟩
  | disp a =>
    rcases transfer_available_to_held_spec c a with ⟨_, h0, h1, he⟩ | ⟨_, he⟩ <;>
      rw [he]
    · constructor <;> simp <;> omega
    · exact ⟨ha, hh⟩
  | res a =>
    rcases transfer_held_to_available_spec c a with ⟨_, h0, h1, he⟩ | ⟨_, he⟩ <;>
      rw [he]
    · constructor <;> simp <;> omega
    · exact ⟨ha, hh⟩
  | cb a =>
    rcases subtract_held_spec c a with ⟨_, h0, h1, he⟩ | ⟨_, he⟩ <;>
      rw [he] <;> simp [Client.lock_account]
    · omega
    · exact ⟨ha, hh⟩

theorem clientAt_nonneg_step (s : WorkerState) (t : Transaction)
    (h : ∀ cid, 0 ≤ (clientAt s cid).available ∧ 0 ≤ (clientAt s cid).held) :
    ∀ cid, 0 ≤ (clientAt (worker_step s t) cid).available ∧
      0 ≤ (clientAt (worker_step s t) cid).held := by
  intro cid
  by_cases hc : cid = t.client
  · subst hc
    obtain ⟨c', hc', hres⟩ := worker_step_self s t
    rw [clientAt, hc']
    exact stepRes_nonneg hres (h t.client).1 (h t.client).2
  · rw [clientAt, worker_step_clients_other s t cid hc]
    exact h cid

theorem clientAt_nonneg_fold (ts : List Transaction) (s : WorkerState)
    (h : ∀ cid, 0 ≤ (clientAt s cid).available ∧ 0 ≤ (clientAt s cid).held) :
    ∀ cid, 0 ≤ (clientAt (ts.foldl worker_step s) cid).available ∧
      0 ≤ (clientAt (ts.foldl worker_step s) cid).held := by
  induction ts generalizing s with
  | nil => exact h
  | cons t ts ih => exact ih (worker_step s t) (clientAt_nonneg_step s t h)

theorem worker_step_eq_locked (s : WorkerState) (t : Transaction)
    (hl : (clientAt s t.client).locked = true) :
    worker_step s t =
      { s with clients := mapInsert s.clients t.client (clientAt s t.client) } := by
  rw [clientAt] at *
  simp only [worker_step]
  rw [if_pos hl]

theorem worker_step_eq_notype (s : WorkerState) (t : Transaction)
    (hl : (clientAt s t.client).locked = false) (hty : t.get_type = none) :
    worker_step s t =
      { s with clients := mapInsert s.clients t.client (clientAt s t.client) } := by
  rw [clientAt] at *
  simp [worker_step, hl, hty]

theorem worker_step_eq_dep_noamount (s : WorkerState) (t : Transaction)
    (hl : (clientAt s t.client).locked = false)
    (hty : t.get_type = some TransactionType.Deposit) (ha : t.amount = none) :
    worker_step s t =
      { s with clients := mapInsert s.clients t.client (clientAt s t.client) } := by
  rw [clientAt] at *
  simp [worker_step, hl, hty, ha]

theorem worker_step_eq_dep_ok (s : WorkerState) (t : Transaction) (a : ℤ)
    (hl : (clientAt s t.client).locked = false)
    (hty : t.get_type = some TransactionType.Deposit) (ha : t.amount = some a)
    (hok : resultIsOk ((clientAt s t.client).add_available a).1 = true) :
    worker_step s t =
      { clients :=
          mapInsert s.clients t.client ((clientAt s t.client).add_available a).2,
        transactions := mapInsert s.transactions t.tx t } := by
  rw [clientAt] at *
  simp [worker_step, hl, hty, ha, hok]

theorem worker_step_eq_dep_err (s : WorkerState) (t : Transaction) (a : ℤ)
    (hl : (clientAt s t.client).locked = false)
    (hty : t.get_type = some TransactionType.Deposit) (ha : t.amount = some a)
    (hok : resultIsOk ((clientAt s t.client).add_available a).1 = false) :
    worker_step s t =
      { s with clients :=
          mapInsert s.clients t.client ((clientAt s t.client).add_available a).2 } := by
  rw [clientAt] at *
  simp [worker_step, hl, hty, ha, hok]

theorem worker_step_eq_wd_noamount (s : WorkerState) (t : Transaction)
    (hl : (clientAt s t.client).locked = false)
    (hty : t.get_type = some TransactionType.Withdrawal) (ha : t.amount = none) :
    worker_step s t =
      { s with clients := mapInsert s.clients t.client (clientAt s t.client) } := by
  rw [clientAt] at *
  simp [worker_step, hl, hty, ha]

theorem worker_step_eq_wd_ok (s : WorkerState) (t : Transaction) (a : ℤ)
    (hl : (clientAt s t.client).locked = false)
    (hty : t.get_type = some TransactionType.Withdrawal) (ha : t.amount = some a)
    (hok : resultIsOk ((clientAt s t.client).subtract_available a).1 = true) :
    worker_step s t =
      { clients :=
          mapInsert s.clients t.client
            ((clientAt s t.client).subtract_available a).2,
        transactions := mapInsert s.transactions t.tx t } := by
  rw [clientAt] at *
  simp [worker_step, hl, hty, ha, hok]

theorem worker_step_eq_wd_err (s : WorkerState) (t : Transaction) (a : ℤ)
    (hl : (clientAt s t.client).locked = false)
    (hty : t.get_type = some TransactionType.Withdrawal) (ha : t.amount = some a)
    (hok : resultIsOk ((clientAt s t.client).subtract_available a).1 = false) :
    worker_step s t =
      { s with clients :=
          (mapInsert s.clients t.client
            ((clientAt s t.client).subtract_available a).2) } := by
  rw [clientAt] at *
  simp [worker_step, hl, hty, ha, hok]

theorem worker_step_eq_disp_noref (s : WorkerState) (t : Transaction)
    (hl : (clientAt s t.client).locked = false)
    (hty : t.get_type = some TransactionType.Dispute)
    (href : s.transactions t.tx = none) :
    worker_step s t =
      { s with clients := mapInsert s.clients t.client (clientAt s t.client) } := by
  rw [clientAt] at *
  simp [worker_step, hl, hty, href]

theorem worker_step_eq_disp_mismatch (s : WorkerState) (t : Transaction)
    (rt : Transaction) (hl : (clientAt s t.client).locked = false)
    (hty : t.get_type = some TransactionType.Dispute)
    (href : s.transactions t.tx = some rt)
    (hne : ¬rt.client = (clientAt s t.client).id) :
    worker_step s t =
      { s with clients := mapInsert s.clients t.client (clientAt s t.client) } := by
  rw [clientAt] at *
  simp [worker_step, hl, hty, href, hne]

theorem worker_step_eq_disp_noamount (s : WorkerState) (t : Transaction)
    (rt : Transaction) (hl : (clientAt s t.client).locked = false)
    (hty : t.get_type = some TransactionType.Dispute)
    (href : s.transactions t.tx = some rt)
    (heq : rt.client = (clientAt s t.client).id) (ha : rt.amount = none) :
    worker_step s t =
      { s with clients := mapInsert s.clients t.client (clientAt s t.client) } := by
  rw [clientAt] at *
  simp [worker_step, hl, hty, href, heq, ha]

theorem worker_step_eq_disp (s : WorkerState) (t : Transaction)
    (rt : Transaction) (a : ℤ) (hl : (clientAt s t.client).locked = false)
    (hty : t.get_type = some TransactionType.Dispute)
    (href : s.transactions t.tx = some rt)
    (heq : rt.client = (clientAt s t.client).id) (ha : rt.amount = some a) :
    worker_step s t =
      { s with clients :=
          (mapInsert s.clients t.client
            ((clientAt s t.client).transfer_available_to_held a).2) } := by
  rw [clientAt] at *
  simp [worker_step, hl, hty, href, heq, ha]

theorem worker_step_eq_res_noref (s : WorkerState) (t : Transaction)
    (hl : (clientAt s t.client).locked = false)
    (hty : t.get_type = some TransactionType.Resolve)
    (href : s.transactions t.tx = none) :
    worker_step s t =
      { s with clients := mapInsert s.clients t.client (clientAt s t.client) } := by
  rw [clientAt] at *
  simp [worker_step, hl, hty, href]

theorem worker_step_eq_res_mismatch (s : WorkerState) (t : Transaction)
    (rt : Transaction) (hl : (clientAt s t.client).locked = false)
    (hty : t.get_type = some TransactionType.Resolve)
    (href : s.transactions t.tx = some rt)
    (hne : ¬rt.client = (clientAt s t.client).id) :
    worker_step s t =
      { s with clients := mapInsert s.clients t.client (clientAt s t.client) } := by
  rw [clientAt] at *
  simp [worker_step, hl, hty, href, hne]

theorem worker_step_eq_res_noamount (s : WorkerState) (t : Transaction)
    (rt : Transaction) (hl : (clientAt s t.client).locked = false)
    (hty : t.get_type = some TransactionType.Resolve)
    (href : s.transactions t.tx = some rt)
    (heq : rt.client = (clientAt s t.client).id) (ha : rt.amount = none) :
    worker_step s t =
      { s with clients := mapInsert s.clients t.client (clientAt s t.client) } := by
  rw [clientAt] at *
  simp [worker_step, hl, hty, href, heq, ha]

theorem worker_step_eq_res (s : WorkerState) (t : Transaction)
    (rt : Transaction) (a : ℤ) (hl : (clientAt s t.client).locked = false)
    (hty : t.get_type = some TransactionType.Resolve)
    (href : s.transactions t.tx = some rt)
    (heq : rt.client = (clientAt s t.client).id) (ha : rt.amount = some a) :
    worker_step s t =
      { s with clients :=
          (mapInsert s.clients t.client
            ((clientAt s t.client).transfer_held_to_available a).2) } := by
  rw [clientAt] at *
  simp [worker_step, hl, hty, href, heq, ha]

theorem worker_step_eq_cb_noref (s : WorkerState) (t : Transaction)
    (hl : (clientAt s t.client).locked = false)
    (hty : t.get_type = some TransactionType.Chargeback)
    (href : s.transactions t.tx = none) :
    worker_step s t =
      { s with clients := mapInsert s.clients t.client (clientAt s t.client) } := by
  rw [clientAt] at *
  simp [worker_step, hl, hty, href]

theorem worker_step_eq_cb_mismatch (s : WorkerState) (t : Transaction)
    (rt : Transaction) (hl : (clientAt s t.client).locked = false)
    (hty : t.get_type = some TransactionType.Chargeback)
    (href : s.transactions t.tx = some rt)
    (hne : ¬rt.client = (clientAt s t.client).id) :
    worker_step s t =
      { s with clients := mapInsert s.clients t.client (clientAt s t.client) } := by
  rw [clientAt] at *
  simp [worker_step, hl, hty, href, hne]

theorem worker_step_eq_cb_noamount (s : WorkerState) (t : Transaction)
    (rt : Transaction) (hl : (clientAt s t.client).locked = false)
    (hty : t.get_type = some TransactionType.Chargeback)
    (href : s.transactions t.tx = some rt)
    (heq : rt.client = (clientAt s t.client).id) (ha : rt.amount = none) :
    worker_step s t =
      { s with clients := mapInsert s.clients t.client (clientAt s t.client) } := by
  rw [clientAt] at *
  simp [worker_step, hl, hty, href, heq, ha]

theorem worker_step_eq_cb (s : WorkerState) (t : Transaction)
    (rt : Transaction) (a : ℤ) (hl : (clientAt s t.client).locked = false)
    (hty : t.get_type = some TransactionType.Chargeback)
    (href : s.transactions t.tx = some rt)
    (heq : rt.client = (clientAt s t.client).id) (ha : rt.amount = some a) :
    worker_step s t =
      { s with clients :=
          (mapInsert s.clients t.client
            ((clientAt s t.client).subtract_held a).2.lock_account) } := by
  rw [clientAt] at *
  simp [worker_step, hl, hty, href, heq, ha]

theorem totalAt_state_insert (m : ℕ → Option Client)
    (tm : ℕ → Option Transaction) (k : ℕ) (v : Client) :
    totalAt { clients := mapInsert m k v, transactions := tm } k =
      v.available + v.held := by
  simp [totalAt, clientAt, mapInsert]

theorem depositApplied_zero_locked (s : WorkerState) (t : Transaction)
    (hl : (clientAt s t.client).locked = true) : depositApplied s t = 0 := by
  simp [depositApplied, hl]

theorem withdrawalApplied_zero_locked (s : WorkerState) (t : Transaction)
    (hl : (clientAt s t.client).locked = true) : withdrawalApplied s t = 0 := by
  simp [withdrawalApplied, hl]

theorem depositApplied_zero_kind (s : WorkerState) (t : Transaction)
    (h : t.get_type ≠ some TransactionType.Deposit) : depositApplied s t = 0 := by
  rcases hty : t.get_type with _ | ty
  · rcases ha : t.amount with _ | a <;> simp [depositApplied, hty, ha]
  · cases ty
    case Deposit => exact absurd hty h
    all_goals rcases ha : t.amount with _ | a <;> simp [depositApplied, hty, ha]

theorem withdrawalApplied_zero_kind (s : WorkerState) (t : Transaction)
    (h : t.get_type ≠ some TransactionType.Withdrawal) :
    withdrawalApplied s t = 0 := by
  rcases hty : t.get_type with _ | ty
  · rcases ha : t.amount with _ | a <;> simp [withdrawalApplied, hty, ha]
  · cases ty
    case Withdrawal => exact absurd hty h
    all_goals rcases ha : t.amount with _ | a <;>
      simp [withdrawalApplied, hty, ha]

theorem depositApplied_zero_noamount (s : WorkerState) (t : Transaction)
    (ha : t.amount = none) : depositApplied s t = 0 := by
  rcases hty : t.get_type with _ | ty
  · simp [depositApplied, hty, ha]
  · cases ty <;> simp [depositApplied, hty, ha]

theorem withdrawalApplied_zero_noamount (s : WorkerState) (t : Transaction)
    (ha : t.amount = none) : withdrawalApplied s t = 0 := by
  rcases hty : t.get_type with _ | ty
  · simp [withdrawalApplied, hty, ha]
  · cases ty <;> simp [withdrawalApplied, hty, ha]

theorem depositApplied_of_dep (s : WorkerState) (t : Transaction) (a : ℤ)
    (hl : (clientAt s t.client).locked = false)
    (hty : t.get_type = some TransactionType.Deposit) (ha : t.amount = some a) :
    depositApplied s t =
      (if resultIsOk ((clientAt s t.client).add_available a).1 then a else 0) := by
  simp [depositApplied, hl, hty, ha]

theorem withdrawalApplied_of_wd (s : WorkerState) (t : Transaction) (a : ℤ)
    (hl : (clientAt s t.client).locked = false)
    (hty : t.get_type = some TransactionType.Withdrawal)
    (ha : t.amount = some a) :
    withdrawalApplied s t =
      (if resultIsOk ((clientAt s t.client).subtract_available a).1 then a
        else 0) := by
  simp [withdrawalApplied, hl, hty, ha]

theorem totalAt_step (s : WorkerState) (t : Transaction) (cid : ℕ) :
    totalAt (worker_step s t) cid ≤ totalAt s cid
      + (if t.client = cid then depositApplied s t else 0)
      - (if t.client = cid then withdrawalApplied s t else 0) := by
  by_cases hc : t.client = cid
  case neg =>
    have h1 : (worker_step s t).clients cid = s.clients cid :=
      worker_step_clients_other s t cid (fun h => hc h.symm)
    simp [totalAt, clientAt, h1, hc]
  case pos =>
    subst hc
    rw [if_pos rfl, if_pos rfl]
    rcases Bool.eq_false_or_eq_true ((clientAt s t.client).locked) with hl | hl
    case inl =>
      rw [worker_step_eq_locked s t hl, totalAt_state_insert,
        depositApplied_zero_locked s t hl, withdrawalApplied_zero_locked s t hl,
        totalAt]
      omega
    case inr =>
      rcases hty : t.get_type with _ | ty
      · rw [worker_step_eq_notype s t hl hty, totalAt_state_insert,
          depositApplied_zero_kind s t (by simp [hty]),
          withdrawalApplied_zero_kind s t (by simp [hty]), totalAt]
        omega
      · cases ty
        case Deposit =>
          rcases ha : t.amount with _ | a
          · rw [worker_step_eq_dep_noamount s t hl hty ha, totalAt_state_insert,
              depositApplied_zero_noamount s t ha,
              withdrawalApplied_zero_noamount s t ha, totalAt]
            omega
          · rw [depositApplied_of_dep s t a hl hty ha,
              withdrawalApplied_zero_kind s t (by simp [hty])]
            rcases add_available_spec (clientAt s t.client) a with
              ⟨hok, h0, he⟩ | ⟨hok, he⟩
            · rw [worker_step_eq_dep_ok s t a hl hty ha hok,
                totalAt_state_insert, he, hok, if_pos rfl, totalAt]
              simp
              omega
            · rw [worker_step_eq_dep_err s t a hl hty ha hok,
                totalAt_state_insert, he, hok, totalAt]
              simp
        case Withdrawal =>
          rcases ha : t.amount with _ | a
          · rw [worker_step_eq_wd_noamount s t hl hty ha, totalAt_state_insert,
              depositApplied_zero_noamount s t ha,
              withdrawalApplied_zero_noamount s t ha, totalAt]
            omega
          · rw [withdrawalApplied_of_wd s t a hl hty ha,
              depositApplied_zero_kind s t (by simp [hty])]
            rcases subtract_available_spec (clientAt s t.client) a with
              ⟨hok, h0, h1, he⟩ | ⟨hok, he⟩
            · rw [worker_step_eq_wd_ok s t a hl hty ha hok,
                totalAt_state_insert, he, hok, if_pos rfl, totalAt]
              simp
              omega
            · rw [worker_step_eq_wd_err s t a hl hty ha hok,
                totalAt_state_insert, he, hok, totalAt]
              simp
        case Dispute =>
          rw [depositApplied_zero_kind s t (by simp [hty]),
            withdrawalApplied_zero_kind s t (by simp [hty])]
          rcases href : s.transactions t.tx with _ | rt
          · rw [worker_step_eq_disp_noref s t hl hty href, totalAt_state_insert,
              totalAt]
            omega
          · by_cases heq : rt.client = (clientAt s t.client).id
            · rcases ha : rt.amount with _ | a
              · rw [worker_step_eq_disp_noamount s t rt hl hty href heq ha,
                  totalAt_state_insert, totalAt]
                omega
              · rw [worker_step_eq_disp s t rt a hl hty href heq ha,
                  totalAt_state_insert, totalAt]
                rcases transfer_available_to_held_spec (clientAt s t.client) a
                  with ⟨hok, h0, h1, he⟩ | ⟨hok, he⟩ <;> rw [he] <;> simp
            · rw [worker_step_eq_disp_mismatch s t rt hl hty href heq,
                totalAt_state_insert, totalAt]
              omega
        case Resolve =>
          rw [depositApplied_zero_kind s t (by simp [hty]),
            withdrawalApplied_zero_kind s t (by simp [hty])]
          rcases href : s.transactions t.tx with _ | rt
          · rw [worker_step_eq_res_noref s t hl hty href, totalAt_state_insert,
              totalAt]
            omega
          · by_cases heq : rt.client = (clientAt s t.client).id
            · rcases ha : rt.amount with _ | a
              · rw [worker_step_eq_res_noamount s t rt hl hty href heq ha,
                  totalAt_state_insert, totalAt]
                omega
              · rw [worker_step_eq_res s t rt a hl hty href heq ha,
                  totalAt_state_insert, totalAt]
                rcases transfer_held_to_available_spec (clientAt s t.client) a
                  with ⟨hok, h0, h1, he⟩ | ⟨hok, he⟩ <;> rw [he] <;> simp
            · rw [worker_step_eq_res_mismatch s t rt hl hty href heq,
                totalAt_state_insert, totalAt]
              omega
        case Chargeback =>
          rw [depositApplied_zero_kind s t (by simp [hty]),
            withdrawalApplied_zero_kind s t (by simp [hty])]
          rcases href : s.transactions t.tx with _ | rt
          · rw [worker_step_eq_cb_noref s t hl hty href, totalAt_state_insert,
              totalAt]
            omega
          · by_cases heq : rt.client = (clientAt s t.client).id
            · rcases ha : rt.amount with _ | a
              · rw [worker_step_eq_cb_noamount s t rt hl hty href heq ha,
                  totalAt_state_insert, totalAt]
                omega
              · rw [worker_step_eq_cb s t rt a hl hty href heq ha,
                  totalAt_state_insert, totalAt]
                rcases subtract_held_spec (clientAt s t.client) a
                  with ⟨hok, h0, h1, he⟩ | ⟨hok, he⟩
                · rw [he]
                  simp [Client.lock_account]
                  omega
                · rw [he]
                  simp [Client.lock_account]
            · rw [worker_step_eq_cb_mismatch s t rt hl hty href heq,
                totalAt_state_insert, totalAt]
              omega

theorem totalAt_fold (ts : List Transaction) (s : WorkerState) (cid : ℕ) :
    totalAt (ts.foldl worker_step s) cid ≤
      totalAt s cid + depSum s ts cid - wdSum s ts cid := by
  induction ts generalizing s with
  | nil => simp [depSum, wdSum]
  | cons t ts ih =>
    have h1 := totalAt_step s t cid
    have h2 := ih (worker_step s t)
    simp only [List.foldl, depSum, wdSum]
    omega

theorem add_available_err (c : Client) (a : ℤ)
    (hf : resultIsOk (c.add_available a).1 = false) :
    (c.add_available a).2 = c := by
  rcases add_available_spec c a with ⟨hok, _, _⟩ | ⟨_, he⟩
  · rw [hok] at hf; cases hf
  · exact he

theorem subtract_available_err (c : Client) (a : ℤ)
    (hf : resultIsOk (c.subtract_available a).1 = false) :
    (c.subtract_available a).2 = c := by
  rcases subtract_available_spec c a with ⟨hok, _, _, _⟩ | ⟨_, he⟩
  · rw [hok] at hf; cases hf
  · exact he

theorem transfer_available_to_held_err (c : Client) (a : ℤ)
    (hf : resultIsOk (c.transfer_available_to_held a).1 = false) :
    (c.transfer_available_to_held a).2 = c := by
  rcases transfer_available_to_held_spec c a with ⟨hok, _, _, _⟩ | ⟨_, he⟩
  · rw [hok] at hf; cases hf
  · exact he

theorem transfer_held_to_available_err (c : Client) (a : ℤ)
    (hf : resultIsOk (c.transfer_held_to_available a).1 = false) :
    (c.transfer_held_to_available a).2 = c := by
  rcases transfer_held_to_available_spec c a with ⟨hok, _, _, _⟩ | ⟨_, he⟩
  · rw [hok] at hf; cases hf
  · exact he

theorem subtract_held_err (c : Client) (a : ℤ)
    (hf : resultIsOk (c.subtract_held a).1 = false) :
    (c.subtract_held a).2 = c := by
  rcases subtract_held_spec c a with ⟨hok, _, _, _⟩ | ⟨_, he⟩
  · rw [hok] at hf; cases hf
  · exact he

theorem transfer_held_to_available_fails (c : Client) (a : ℤ)
    (h : c.held < a) : (c.transfer_held_to_available a).2 = c := by
  rcases transfer_held_to_available_spec c a with ⟨_, _, h1, _⟩ | ⟨_, he⟩
  · omega
  · exact he

theorem transfer_available_to_held_ok (c : Client) (a : ℤ) (h0 : 0 ≤ a)
    (h1 : a ≤ c.available) (h2 : c.available ≤ Dmax) (h3 : 0 ≤ c.held)
    (h4 : c.held + a ≤ Dmax) :
    c.transfer_available_to_held a =
      (.ok (), { c with available := c.available - a, held := c.held + a }) := by
  have hD : (0 : ℤ) < Dmax := by decide
  have hna : ¬(a < 0) := by omega
  have hnv : ¬(c.available - a < 0) := by omega
  simp [Client.transfer_available_to_held,
    @decCheckedSub_in c.available a ⟨by omega, by omega⟩,
    @decCheckedAdd_in c.held a ⟨by omega, h4⟩, hna, hnv]

theorem subtract_held_ok (c : Client) (a : ℤ) (h0 : 0 ≤ a) (h1 : a ≤ c.held)
    (h2 : c.held ≤ Dmax) :
    c.subtract_held a = (.ok (), { c with held := c.held - a }) := by
  have hD : (0 : ℤ) < Dmax := by decide
  have hna : ¬(a < 0) := by omega
  have hnh : ¬(c.held - a < 0) := by omega
  simp [Client.subtract_held, @decCheckedSub_in c.held a ⟨by omega, by omega⟩,
    hna, hnh]

theorem state_insert_same (s : WorkerState) (k : ℕ) (c : Client)
    (h : s.clients k = some c) :
    ({ s with clients := mapInsert s.clients k c } : WorkerState) = s := by
  cases s with
  | mk cm tm =>
    simp only [WorkerState.mk.injEq, and_true]
    funext k'
    by_cases hk : k' = k
    · subst hk; rw [mapInsert_self]; exact h.symm
    · exact mapInsert_other cm k k' c hk

theorem clientAt_eq_of_some (s : WorkerState) (k : ℕ) (c : Client)
    (h : s.clients k = some c) : clientAt s k = c := by
  rw [clientAt, h]; rfl

theorem worker_step_locked_preserved (s : WorkerState) (t : Transaction)
    (cid : ℕ) (c : Client) (h : s.clients cid = some c)
    (hl : c.locked = true) : (worker_step s t).clients cid = some c := by
  by_cases hc : cid = t.client
  · subst hc
    have hca : clientAt s t.client = c := clientAt_eq_of_some s t.client c h
    rw [worker_step_eq_locked s t (by rw [hca]; exact hl)]
    show mapInsert s.clients t.client (clientAt s t.client) t.client = some c
    rw [mapInsert_self, hca]
  · rw [worker_step_clients_other s t cid hc]; exact h

theorem worker_fold_locked_preserved (ts : List Transaction) (s : WorkerState)
    (cid : ℕ) (c : Client) (h : s.clients cid = some c)
    (hl : c.locked = true) :
    (ts.foldl worker_step s).clients cid = some c := by
  induction ts generalizing s with
  | nil => exact h
  | cons t ts ih =>
    exact ih (worker_step s t) (worker_step_locked_preserved s t cid c h hl)

/-- Claim C1, counterexample: after `Deposit(1,1,10)` the account holds no
funds in `held`, so the Chargeback's `subtract_held 10` fails; the claim
says the account is then not locked and unchanged, but the worker locks
it anyway (`lock_account` runs unconditionally after the failed forfeit). -/
theorem c1_chargeback_lock_counterexample :
    (worker [⟨"deposit", 1, 1, some 10⟩]).clients 1 =
      some (Client.mk 1 10 0 false) ∧
    (worker [⟨"deposit", 1, 1, some 10⟩]).transactions 1 =
      some ⟨"deposit", 1, 1, some 10⟩ ∧
    resultIsOk ((Client.mk 1 10 0 false).subtract_held 10).1 = false ∧
    (worker [⟨"deposit", 1, 1, some 10⟩, ⟨"chargeback", 1, 1, none⟩]).clients 1 =
      some (Client.mk 1 10 0 true) :=
  ⟨by decide, by decide, by decide, by decide⟩

/-- Claim C1, amended: when the Chargeback's referenced transaction is
found, belongs to the current client and carries an amount, but
`subtract_held` fails, the account's balances are left unchanged yet the
account IS locked (the lock is applied unconditionally after the forfeit
attempt), and the transaction history is untouched. -/
theorem c1_chargeback_forfeit_failure_still_locks (s : WorkerState)
    (t : Transaction) (rt : Transaction) (c : Client) (a : ℤ)
    (hc : s.clients t.client = some c) (hl : c.locked = false)
    (hty : t.get_type = some TransactionType.Chargeback)
    (href : s.transactions t.tx = some rt) (hcl : rt.client = c.id)
    (ha : rt.amount = some a)
    (hf : resultIsOk (c.subtract_held a).1 = false) :
    (worker_step s t).clients t.client = some c.lock_account ∧
    (worker_step s t).transactions = s.transactions := by
  have hca : clientAt s t.client = c := clientAt_eq_of_some s t.client c hc
  rw [worker_step_eq_cb s t rt a (by rw [hca]; exact hl) hty href
    (by rw [hca]; exact hcl) ha]
  constructor
  · show mapInsert s.clients t.client
      ((clientAt s t.client).subtract_held a).2.lock_account t.client =
        some c.lock_account
    rw [mapInsert_self, hca, subtract_held_err c a hf]
  · rfl

/-- Witness for C1's amended theorem at a concrete input. -/
theorem c1_chargeback_forfeit_failure_still_locks_witness :
    (worker_step (worker [⟨"deposit", 1, 1, some 10⟩])
        ⟨"chargeback", 1, 1, none⟩).clients 1 =
      some (Client.mk 1 10 0 false).lock_account ∧
    (worker_step (worker [⟨"deposit", 1, 1, some 10⟩])
        ⟨"chargeback", 1, 1, none⟩).transactions =
      (worker [⟨"deposit", 1, 1, some 10⟩]).transactions :=
  c1_chargeback_forfeit_failure_still_locks
    (worker [⟨"deposit", 1, 1, some 10⟩]) ⟨"chargeback", 1, 1, none⟩
    ⟨"deposit", 1, 1, some 10⟩ (Client.mk 1 10 0 false) 10
    (by decide) (by decide) (by decide) (by decide) (by decide) (by decide)
    (by decide)

/-- Claim C2: starting from the empty worker state, after processing any
entry list every client account satisfies `available ≥ 0` and `held ≥ 0`
(quantifying over all lists covers the state after every operation). -/
theorem c2_worker_balances_nonneg (ts : List Transaction) (cid : ℕ)
    (c : Client) (hc : (worker ts).clients cid = some c) :
    0 ≤ c.available ∧ 0 ≤ c.held := by
  have h := clientAt_nonneg_fold ts WorkerState.init
    (fun cid' => by simp [clientAt, WorkerState.init, Client.new]) cid
  rw [← worker] at h
  rwa [clientAt_eq_of_some (worker ts) cid c hc] at h

/-- Witness for C2 at a concrete input. -/
theorem c2_worker_balances_nonneg_witness :
    0 ≤ (Client.mk 1 5 0 false).available ∧
      0 ≤ (Client.mk 1 5 0 false).held :=
  c2_worker_balances_nonneg
    [⟨"deposit", 1, 1, some 10⟩, ⟨"withdrawal", 1, 2, some 5⟩] 1
    (Client.mk 1 5 0 false) (by decide)

/-- Claim C3, counterexample: two successful deposits with the same
`tx_id = 1` (amounts 10 then 5); `HashMap::insert` replaces the first
record, so the history maps `tx 1` to the later entry with amount 5, and
a subsequent Dispute holds 5, not 10 — the originally recorded entry
does not remain. -/
theorem c3_history_counterexample :
    (worker [⟨"deposit", 1, 1, some 10⟩, ⟨"deposit", 1, 1, some 5⟩]).transactions
        1 = some ⟨"deposit", 1, 1, some 5⟩ ∧
    (⟨"deposit", 1, 1, some 5⟩ : Transaction) ≠ ⟨"deposit", 1, 1, some 10⟩ ∧
    (worker [⟨"deposit", 1, 1, some 10⟩, ⟨"deposit", 1, 1, some 5⟩,
        ⟨"dispute", 1, 1, none⟩]).clients 1 =
      some (Client.mk 1 10 5 false) :=
  ⟨by decide, by decide, by decide⟩

/-- Claim C3, amended: when a later successful Deposit or Withdrawal
arrives with a `tx_id` already present in the history, the later entry
REPLACES the recorded one, and subsequent Dispute/Resolve/Chargeback
lookups reference this latest entry. -/
theorem c3_history_insert_replaces (s : WorkerState) (t t0 : Transaction)
    (a : ℤ) (_hpresent : s.transactions t.tx = some t0)
    (hl : (clientAt s t.client).locked = false) (ha : t.amount = some a) :
    (t.get_type = some TransactionType.Deposit →
      resultIsOk ((clientAt s t.client).add_available a).1 = true →
      (worker_step s t).transactions t.tx = some t) ∧
    (t.get_type = some TransactionType.Withdrawal →
      resultIsOk ((clientAt s t.client).subtract_available a).1 = true →
      (worker_step s t).transactions t.tx = some t) := by
  constructor <;> intro hty hok
  · rw [worker_step_eq_dep_ok s t a hl hty ha hok]
    exact mapInsert_self _ _ _
  · rw [worker_step_eq_wd_ok s t a hl hty ha hok]
    exact mapInsert_self _ _ _

/-- Witness for C3's amended theorem at a concrete input. -/
theorem c3_history_insert_replaces_witness :
    (worker_step (worker [⟨"deposit", 1, 1, some 10⟩])
        ⟨"deposit", 1, 1, some 5⟩).transactions 1 =
      some ⟨"deposit", 1, 1, some 5⟩ :=
  (c3_history_insert_replaces (worker [⟨"deposit", 1, 1, some 10⟩])
      ⟨"deposit", 1, 1, some 5⟩ ⟨"deposit", 1, 1, some 10⟩ 5
      (by decide) (by decide) (by decide)).1 (by decide) (by decide)

/-- Claim C4: every fund-movement operation is atomic — whenever it
returns an error, the account it returns is exactly the account it was
given (no partial update). -/
theorem c4_fund_ops_atomic_on_failure (c : Client) (a : ℤ) :
    (resultIsOk (c.add_available a).1 = false →
      (c.add_available a).2 = c) ∧
    (resultIsOk (c.subtract_available a).1 = false →
      (c.subtract_available a).2 = c) ∧
    (resultIsOk (c.transfer_available_to_held a).1 = false →
      (c.transfer_available_to_held a).2 = c) ∧
    (resultIsOk (c.transfer_held_to_available a).1 = false →
      (c.transfer_held_to_available a).2 = c) ∧
    (resultIsOk (c.subtract_held a).1 = false →
      (c.subtract_held a).2 = c) :=
  ⟨add_available_err c a, subtract_available_err c a,
    transfer_available_to_held_err c a, transfer_held_to_available_err c a,
    subtract_held_err c a⟩

/-- Witness for C4 at a concrete input (a negative amount makes every
operation fail). -/
theorem c4_fund_ops_atomic_on_failure_witness :
    ((Client.mk 1 3 2 false).add_available (-1)).2 = Client.mk 1 3 2 false ∧
    ((Client.mk 1 3 2 false).subtract_available (-1)).2 =
      Client.mk 1 3 2 false ∧
    ((Client.mk 1 3 2 false).transfer_available_to_held (-1)).2 =
      Client.mk 1 3 2 false ∧
    ((Client.mk 1 3 2 false).transfer_held_to_available (-1)).2 =
      Client.mk 1 3 2 false ∧
    ((Client.mk 1 3 2 false).subtract_held (-1)).2 = Client.mk 1 3 2 false :=
  ⟨(c4_fund_ops_atomic_on_failure (Client.mk 1 3 2 false) (-1)).1 (by decide),
    (c4_fund_ops_atomic_on_failure (Client.mk 1 3 2 false) (-1)).2.1
      (by decide),
    (c4_fund_ops_atomic_on_failure (Client.mk 1 3 2 false) (-1)).2.2.1
      (by decide),
    (c4_fund_ops_atomic_on_failure (Client.mk 1 3 2 false) (-1)).2.2.2.1
      (by decide),
    (c4_fund_ops_atomic_on_failure (Client.mk 1 3 2 false) (-1)).2.2.2.2
      (by decide)⟩

/-- Claim C5: once an account is locked, processing any further entries
leaves that client's stored account (available, held, locked) exactly as
it was: the lock is never reset and no balance changes. -/
theorem c5_locked_account_frozen (pre post : List Transaction) (cid : ℕ)
    (c : Client) (h : (worker pre).clients cid = some c)
    (hl : c.locked = true) :
    (worker (pre ++ post)).clients cid = some c := by
  rw [worker, List.foldl_append]
  exact worker_fold_locked_preserved post (worker pre) cid c h hl

/-- Witness for C5 at a concrete input. -/
theorem c5_locked_account_frozen_witness :
    (worker ([⟨"deposit", 1, 1, some 10⟩, ⟨"chargeback", 1, 1, none⟩] ++
        [⟨"withdrawal", 1, 2, some 5⟩, ⟨"deposit", 1, 3, some 7⟩])).clients 1 =
      some (Client.mk 1 10 0 true) :=
  c5_locked_account_frozen
    [⟨"deposit", 1, 1, some 10⟩, ⟨"chargeback", 1, 1, none⟩]
    [⟨"withdrawal", 1, 2, some 5⟩, ⟨"deposit", 1, 3, some 7⟩] 1
    (Client.mk 1 10 0 true) (by decide) (by decide)

/-- Claim C6: conservation — for every entry list whose dispute-family
entries reference already-seen tx ids, every final account's
`available + held` is at most its applied deposits minus its applied
withdrawals. -/
theorem c6_worker_conservation (ts : List Transaction)
    (_hseen : refsSeenB ts = true) (cid : ℕ) (c : Client)
    (hc : (worker ts).clients cid = some c) :
    c.available + c.held ≤
      depSum WorkerState.init ts cid - wdSum WorkerState.init ts cid := by
  have h1 := totalAt_fold ts WorkerState.init cid
  have h2 : totalAt WorkerState.init cid = 0 := by
    simp [totalAt, clientAt, WorkerState.init, Client.new]
  have h3 : totalAt (worker ts) cid = c.available + c.held := by
    simp [totalAt, clientAt_eq_of_some (worker ts) cid c hc]
  rw [worker] at h3
  omega

/-- Witness for C6 at a concrete input. -/
theorem c6_worker_conservation_witness :
    (Client.mk 1 0 0 true).available + (Client.mk 1 0 0 true).held ≤
      depSum WorkerState.init
        [⟨"deposit", 1, 1, some 10⟩, ⟨"dispute", 1, 1, none⟩,
          ⟨"chargeback", 1, 1, none⟩] 1 -
      wdSum WorkerState.init
        [⟨"deposit", 1, 1, some 10⟩, ⟨"dispute", 1, 1, none⟩,
          ⟨"chargeback", 1, 1, none⟩] 1 :=
  c6_worker_conservation
    [⟨"deposit", 1, 1, some 10⟩, ⟨"dispute", 1, 1, none⟩,
      ⟨"chargeback", 1, 1, none⟩]
    (by decide) 1 (Client.mk 1 0 0 true) (by decide)

/-- Claim C7: a Resolve whose referenced transaction is found and owned by
the client, but whose amount exceeds the currently held funds (as after a
previous Resolve already returned the hold), is silently rejected and the
whole worker state is unchanged. -/
theorem c7_resolve_idempotent (s : WorkerState) (t : Transaction)
    (rt : Transaction) (c : Client) (a : ℤ)
    (hc : s.clients t.client = some c)
    (hty : t.get_type = some TransactionType.Resolve)
    (href : s.transactions t.tx = some rt) (hcl : rt.client = c.id)
    (ha : rt.amount = some a) (hheld : c.held < a) :
    worker_step s t = s := by
  have hca : clientAt s t.client = c := clientAt_eq_of_some s t.client c hc
  rcases Bool.eq_false_or_eq_true c.locked with hl | hl
  · rw [worker_step_eq_locked s t (by rw [hca]; exact hl), hca]
    exact state_insert_same s t.client c hc
  · rw [worker_step_eq_res s t rt a (by rw [hca]; exact hl) hty href
      (by rw [hca]; exact hcl) ha, hca,
      transfer_held_to_available_fails c a hheld]
    exact state_insert_same s t.client c hc

/-- Witness for C7 at a concrete input (a second Resolve of tx 1 after the
first one already returned the held 10 to available). -/
theorem c7_resolve_idempotent_witness :
    worker_step
      (worker [⟨"deposit", 1, 1, some 10⟩, ⟨"dispute", 1, 1, none⟩,
        ⟨"resolve", 1, 1, none⟩]) ⟨"resolve", 1, 1, none⟩ =
    worker [⟨"deposit", 1, 1, some 10⟩, ⟨"dispute", 1, 1, none⟩,
      ⟨"resolve", 1, 1, none⟩] :=
  c7_resolve_idempotent
    (worker [⟨"deposit", 1, 1, some 10⟩, ⟨"dispute", 1, 1, none⟩,
      ⟨"resolve", 1, 1, none⟩]) ⟨"resolve", 1, 1, none⟩
    ⟨"deposit", 1, 1, some 10⟩ (Client.mk 1 10 0 false) 10
    (by decide) (by decide) (by decide) (by decide) (by decide) (by decide)

/-- Claim C8, counterexample: the state with `available = held =
Decimal::MAX` is reachable (deposit MAX, dispute it, deposit MAX again),
and there `get_total` (a saturating add) differs from the exact
`available + held`. -/
theorem c8_get_total_counterexample :
    (worker [⟨"deposit", 1, 1, some Dmax⟩, ⟨"dispute", 1, 1, none⟩,
        ⟨"deposit", 1, 2, some Dmax⟩]).clients 1 =
      some (Client.mk 1 Dmax Dmax false) ∧
    (Client.mk 1 Dmax Dmax false).get_total ≠
      (Client.mk 1 Dmax Dmax false).available +
        (Client.mk 1 Dmax Dmax false).held :=
  ⟨by decide, by decide⟩

/-- Claim C8, amended: `get_total` equals the exact `available + held`
whenever that sum is within the representable range `[-Dmax, Dmax]`;
outside it, the saturating add clamps. -/
theorem c8_get_total_exact_in_range (c : Client)
    (h1 : -Dmax ≤ c.available + c.held) (h2 : c.available + c.held ≤ Dmax) :
    c.get_total = c.available + c.held := by
  rw [Client.get_total, decSaturatingAdd, if_neg (by omega), if_neg (by omega)]

/-- Witness for C8's amended theorem at a concrete input. -/
theorem c8_get_total_exact_in_range_witness :
    (Client.mk 1 3 4 false).get_total =
      (Client.mk 1 3 4 false).available + (Client.mk 1 3 4 false).held :=
  c8_get_total_exact_in_range (Client.mk 1 3 4 false) (by decide) (by decide)

/-- Claim C9: the chargeback-lock scenario — Deposit(1,1,10),
Deposit(1,2,5), Dispute(1,1), Chargeback(1,1), Withdrawal(1,3,5) leaves
client 1 with `available + held = 5`, locked, and the final withdrawal
has no effect (same account as after four entries, and tx 3 is not
recorded). -/
theorem c9_chargeback_scenario :
    (worker [⟨"deposit", 1, 1, some 10⟩, ⟨"deposit", 1, 2, some 5⟩,
        ⟨"dispute", 1, 1, none⟩, ⟨"chargeback", 1, 1, none⟩,
        ⟨"withdrawal", 1, 3, some 5⟩]).clients 1 =
      some (Client.mk 1 5 0 true) ∧
    (Client.mk 1 5 0 true).available + (Client.mk 1 5 0 true).held = 5 ∧
    (worker [⟨"deposit", 1, 1, some 10⟩, ⟨"deposit", 1, 2, some 5⟩,
        ⟨"dispute", 1, 1, none⟩, ⟨"chargeback", 1, 1, none⟩,
        ⟨"withdrawal", 1, 3, some 5⟩]).clients 1 =
      (worker [⟨"deposit", 1, 1, some 10⟩, ⟨"deposit", 1, 2, some 5⟩,
        ⟨"dispute", 1, 1, none⟩, ⟨"chargeback", 1, 1, none⟩]).clients 1 ∧
    (worker [⟨"deposit", 1, 1, some 10⟩, ⟨"deposit", 1, 2, some 5⟩,
        ⟨"dispute", 1, 1, none⟩, ⟨"chargeback", 1, 1, none⟩,
        ⟨"withdrawal", 1, 3, some 5⟩]).transactions 3 = none :=
  ⟨by decide, by decide, by decide, by decide⟩

/-- Claim C10: the dispute-family paths never check the kind of the
referenced entry — a Dispute referencing a recorded Withdrawal moves its
amount from available to held, and a following Chargeback forfeits that
hold and locks the account, exactly as for a Deposit. -/
theorem c10_dispute_chargeback_on_withdrawal (s : WorkerState)
    (tc txid : ℕ) (rt : Transaction) (c : Client) (a : ℤ)
    (hc : s.clients tc = some c) (hl : c.locked = false)
    (href : s.transactions txid = some rt)
    (_hkind : rt.get_type = some TransactionType.Withdrawal)
    (hcl : rt.client = c.id) (ha : rt.amount = some a) (h0 : 0 ≤ a)
    (h1 : a ≤ c.available) (h2 : c.available ≤ Dmax) (h3 : 0 ≤ c.held)
    (h4 : c.held + a ≤ Dmax) :
    (worker_step s ⟨"dispute", tc, txid, none⟩).clients tc =
      some { c with available := c.available - a, held := c.held + a } ∧
    (worker_step (worker_step s ⟨"dispute", tc, txid, none⟩)
        ⟨"chargeback", tc, txid, none⟩).clients tc =
      some { c with available := c.available - a, locked := true } := by
  have hca : clientAt s tc = c := clientAt_eq_of_some s tc c hc
  have htr := transfer_available_to_held_ok c a h0 h1 h2 h3 h4
  have hstep1 := worker_step_eq_disp s ⟨"dispute", tc, txid, none⟩ rt a
    (by rw [hca]; exact hl) rfl href (by rw [hca]; exact hcl) ha
  have hc1 : (worker_step s ⟨"dispute", tc, txid, none⟩).clients tc =
      some { c with available := c.available - a, held := c.held + a } := by
    rw [hstep1]
    show mapInsert s.clients tc
      ((clientAt s tc).transfer_available_to_held a).2 tc = some _
    rw [mapInsert_self, hca, htr]
  refine ⟨hc1, ?_⟩
  have hca1 : clientAt (worker_step s ⟨"dispute", tc, txid, none⟩) tc =
      { c with available := c.available - a, held := c.held + a } :=
    clientAt_eq_of_some _ tc _ hc1
  have href1 : (worker_step s ⟨"dispute", tc, txid, none⟩).transactions txid =
      some rt := by rw [hstep1]; exact href
  have hsub := subtract_held_ok
    { c with available := c.available - a, held := c.held + a } a h0
    (by simp; omega) (by simp; omega)
  rw [worker_step_eq_cb (worker_step s ⟨"dispute", tc, txid, none⟩)
    ⟨"chargeback", tc, txid, none⟩ rt a (by rw [hca1]; exact hl) rfl href1
    (by rw [hca1]; exact hcl) ha]
  show mapInsert (worker_step s ⟨"dispute", tc, txid, none⟩).clients tc
    ((clientAt (worker_step s ⟨"dispute", tc, txid, none⟩) tc).subtract_held
      a).2.lock_account tc = some _
  rw [mapInsert_self, hca1, hsub]
  simp [Client.lock_account]

/-- Witness for C10 at a concrete input: tx 1 is a recorded successful
withdrawal, and dispute-then-chargeback on it behaves as for a deposit. -/
theorem c10_dispute_chargeback_on_withdrawal_witness :
    (worker_step (worker [⟨"deposit", 1, 1, some 10⟩,
        ⟨"withdrawal", 1, 2, some 4⟩]) ⟨"dispute", 1, 2, none⟩).clients 1 =
      some (Client.mk 1 2 4 false) ∧
    (worker_step (worker_step (worker [⟨"deposit", 1, 1, some 10⟩,
        ⟨"withdrawal", 1, 2, some 4⟩]) ⟨"dispute", 1, 2, none⟩)
        ⟨"chargeback", 1, 2, none⟩).clients 1 =
      some (Client.mk 1 2 0 true) :=
  c10_dispute_chargeback_on_withdrawal
    (worker [⟨"deposit", 1, 1, some 10⟩, ⟨"withdrawal", 1, 2, some 4⟩]) 1 2
    ⟨"withdrawal", 1, 2, some 4⟩ (Client.mk 1 6 0 false) 4
    (by decide) (by decide) (by decide) (by decide) (by decide) (by decide)
    (by decide) (by decide) (by decide) (by decide) (by decide)

end RCT
